import Mathlib

/-!
Verification of the movies API gateway / gRPC microservice repository.

This file gives a shallow embedding of the core of the movies service:

* the domain model (`Movie`, `MovieFilter`, the error sentinels, `NewMovie`,
  `Movie.Validate`, `Movie.Update`) from
  `movies-service/internal/core/domain/movie.go`;
* the MongoDB repository adapter (`FindAll`, `FindByID`, `Create`, `Delete`,
  `Count`, `ExistsByID`, `GetNextID`) from
  `movies-service/internal/adapters/database/mongodb.go`, with the Mongo
  collection modelled as a list of documents (`List Movie`);
* the business-logic service (`GetMovies`, `GetMovie`, `CreateMovie`,
  `DeleteMovie`) from
  `movies-service/internal/core/services/movie_service.go`, written over an
  abstract repository record so that properties quantifying over arbitrary
  repositories (including failing ones) can be stated.

Modelling conventions:

* Go `int32` values are carried as `Int`, and every arithmetic operation
  the source performs on them — the skip multiplication of `FindAll`, the
  next-id increment of `GetNextID`, and the `int32(count)` narrowing of
  `Count` — is reduced into the signed 32-bit range with an explicit
  `wrap32`, so overflow behaves as in the program.
* Go `len(s)` (byte length) is modelled as character-list length
  (`s.data.length`).  Every use in the source is a comparison with 4 followed
  by `strconv.Atoi`, and any string where the two lengths differ contains a
  multi-byte character, fails `Atoi` under both readings, and yields the same
  `ErrInvalidYear` result, so the two models are observationally equal here.
* `fmt.Errorf("...: %w", err)` wrapping preserves the wrapped sentinel for
  `errors.Is`; since only the error kind is ever inspected, wrapping is
  modelled as the identity on the error value.
* `time.Now().Year()` is a parameter `currentYear` threaded into the
  functions that read it.
* Stateful repository operations are functions `σ → result × σ` and the
  service threads the state explicitly; the Mongo adapter instance uses
  `σ := List Movie` for the `movies` collection.
-/

deriving instance DecidableEq for Except

namespace MoviesService

/-- Movie is the sole persisted entity: `id` (the Mongo `_id` primary key),
`title` and `year` (a 4-digit string). -/
structure Movie where
  id : Int
  title : String
  year : String
deriving Repr, DecidableEq

/-- MovieFilter is the transient pagination request (`Page`, `Limit`). -/
structure MovieFilter where
  Page : Int
  Limit : Int
deriving Repr, DecidableEq

/-- DomainError models the error values of the domain package: the four
sentinels of `movie.go`, the ad-hoc `errors.New` validation messages, and
wrapped storage failures. -/
inductive DomainError where
  | movieNotFound
  | invalidMovieData
  | movieAlreadyExists
  | invalidYear
  | validation (msg : String)
  | storage (msg : String)
deriving Repr, DecidableEq

/-- A classifier for the spec's `InvalidData` error kind: caller-supplied
data failing a structural or business constraint (the `ErrInvalidMovieData`
sentinel, the `ErrInvalidYear` sentinel, and the `errors.New` validation
messages produced by `NewMovie` / `Validate`). -/
def DomainError.isInvalidData : DomainError → Bool
  | .invalidMovieData => true
  | .invalidYear => true
  | .validation _ => true
  | _ => false

/-- Value of a digit string, most significant digit first (the accumulator
loop of Go's `strconv.Atoi` fast path). -/
def digitsVal (cs : List Char) : Nat :=
  cs.foldl (fun a c => a * 10 + (c.toNat - 48)) 0

/-- Digit-run parser used by `goAtoi`: a non-empty all-digit run parses to
its value, anything else is an error. -/
def parseDigits (cs : List Char) : Option Nat :=
  if cs.isEmpty then none
  else if cs.all Char.isDigit then some (digitsVal cs)
  else none

/-- Model of Go's `strconv.Atoi`: an optional leading sign followed by a
non-empty run of digits.  (The 64-bit overflow check of `Atoi` is dropped:
every call site first checks the string has length 4, which cannot
overflow.) -/
def goAtoi (s : String) : Option Int :=
  match s.data with
  | [] => none
  | c :: rest =>
    if c = '-' then (parseDigits rest).map (fun n => -(n : Int))
    else if c = '+' then (parseDigits rest).map (fun n => (n : Int))
    else (parseDigits (c :: rest)).map (fun n => (n : Int))

/-- NewMovie from `movie.go`: constructs a movie, rejecting empty title,
empty year, year of length other than 4, year not accepted by `Atoi`, and a
parsed year outside `[1800, currentYear + 10]`. -/
def NewMovie (currentYear : Int) (id : Int) (title year : String) :
    Except DomainError Movie :=
  if title = "" then .error (.validation "title cannot be empty")
  else if year = "" then .error (.validation "year cannot be empty")
  else if year.data.length ≠ 4 then .error .invalidYear
  else
    match goAtoi year with
    | none => .error .invalidYear
    | some yearInt =>
      if yearInt < 1800 ∨ yearInt > currentYear + 10 then
        .error (.validation "year must be between 1800 and current year plus 10")
      else .ok ⟨id, title, year⟩

/-- Validate from `movie.go`: re-checks an already-constructed movie.  Note
that, unlike `NewMovie`, it performs no range check on the parsed year. -/
def Movie.Validate (m : Movie) : Except DomainError Unit :=
  if m.title = "" then .error (.validation "title cannot be empty")
  else if m.year = "" then .error (.validation "year cannot be empty")
  else if m.year.data.length ≠ 4 then .error .invalidYear
  else
    match goAtoi m.year with
    | none => .error .invalidYear
    | some _ => .ok ()

/-- Update from `movie.go`.  The Go method mutates the receiver; the model
returns the receiver's final state together with the returned error.  The
title is assigned before the year checks run, so a year failure leaves a
partially updated value. -/
def Movie.Update (m : Movie) (title year : String) :
    Movie × Except DomainError Unit :=
  let m1 := if title = "" then m else { m with title := title }
  if year = "" then (m1, m1.Validate)
  else if year.data.length ≠ 4 then (m1, .error .invalidYear)
  else
    match goAtoi year with
    | none => (m1, .error .invalidYear)
    | some _ =>
      let m2 := { m1 with year := year }
      (m2, m2.Validate)

/-- IsEqual from `movie.go`: field-wise equality. -/
def Movie.IsEqual (m other : Movie) : Bool :=
  m.id == other.id && m.title == other.title && m.year == other.year

/-- Copy from `movie.go`: a fresh value with the same fields. -/
def Movie.Copy (m : Movie) : Movie :=
  ⟨m.id, m.title, m.year⟩

/-- MovieRepository is the ports-layer persistence contract
(`ports/repository.go`), with explicit state threading: each operation
returns its result together with the successor repository state. -/
structure MovieRepository (σ : Type) where
  FindAll : MovieFilter → σ → Except DomainError (List Movie) × σ
  FindByID : Int → σ → Except DomainError Movie × σ
  Create : Movie → σ → Except DomainError Movie × σ
  Delete : Int → σ → Except DomainError Unit × σ
  Count : σ → Except DomainError Int × σ
  ExistsByID : Int → σ → Except DomainError Bool × σ
  GetNextID : σ → Except DomainError Int × σ

/-- Ordering used by the Mongo adapter's ascending `_id` sort. -/
def idLe (a b : Movie) : Prop := a.id ≤ b.id

/-- Ordering used by the Mongo adapter's descending `_id` sort. -/
def idGe (a b : Movie) : Prop := b.id ≤ a.id

instance : DecidableRel idLe := fun a b => inferInstanceAs (Decidable (a.id ≤ b.id))

instance : DecidableRel idGe := fun a b => inferInstanceAs (Decidable (b.id ≤ a.id))

instance : IsTotal Movie idLe := ⟨fun a b => Int.le_total a.id b.id⟩

instance : IsTrans Movie idLe := ⟨fun _ _ _ h1 h2 => le_trans h1 h2⟩

instance : IsTotal Movie idGe := ⟨fun a b => Int.le_total b.id a.id⟩

instance : IsTrans Movie idGe := ⟨fun _ _ _ h1 h2 => le_trans h2 h1⟩

/-- The collection sorted by ascending `_id` (the `SetSort _id 1` option of
`FindAll`). -/
def sortById (s : List Movie) : List Movie := List.insertionSort idLe s

/-- The collection sorted by descending `_id` (the `SetSort _id -1` option
of `GetNextID`). -/
def sortByIdDesc (s : List Movie) : List Movie := List.insertionSort idGe s

/-- Reduction of an integer into the signed 32-bit range
`[-2^31, 2^31)`, modelling Go `int32` wraparound. -/
def wrap32 (n : Int) : Int := (n + 2 ^ 31) % 2 ^ 32 - 2 ^ 31

/-- FindAll of the Mongo adapter: sort ascending by `_id`, skip
`(Page-1)*Limit` documents, return at most `Limit`.  The skip is computed
in `int32` and wraps; MongoDB rejects a negative skip value, which the
adapter surfaces as a wrapped find error. -/
def mongoFindAll (filter : MovieFilter) (s : List Movie) :
    Except DomainError (List Movie) × List Movie :=
  let skip := wrap32 ((filter.Page - 1) * filter.Limit)
  if skip < 0 then
    (.error (.storage "skip value is required to be non-negative"), s)
  else (.ok (((sortById s).drop skip.toNat).take filter.Limit.toNat), s)

/-- FindByID of the Mongo adapter: `FindOne` on `_id`, translating the
no-document outcome into `ErrMovieNotFound`. -/
def mongoFindByID (id : Int) (s : List Movie) :
    Except DomainError Movie × List Movie :=
  match s.find? (fun m => m.id == id) with
  | some m => (.ok m, s)
  | none => (.error .movieNotFound, s)

/-- Create of the Mongo adapter: validates the movie through
`Movie.Validate` before the insert, and translates a duplicate-key outcome
into `ErrMovieAlreadyExists`. -/
def mongoCreate (m : Movie) (s : List Movie) :
    Except DomainError Movie × List Movie :=
  match m.Validate with
  | .error e => (.error e, s)
  | .ok _ =>
    if s.any (fun x => x.id == m.id) then (.error .movieAlreadyExists, s)
    else (.ok m, s ++ [m])

/-- Delete of the Mongo adapter: `DeleteOne` on `_id`; a deleted count of
zero is reported as `ErrMovieNotFound`. -/
def mongoDelete (id : Int) (s : List Movie) :
    Except DomainError Unit × List Movie :=
  if s.any (fun x => x.id == id) then (.ok (), s.eraseP (fun x => x.id == id))
  else (.error .movieNotFound, s)

/-- Count of the Mongo adapter: `CountDocuments` over the whole
collection; the source narrows the `int64` document count with
`int32(count)`, which wraps. -/
def mongoCount (s : List Movie) : Except DomainError Int × List Movie :=
  (.ok (wrap32 (s.length : Int)), s)

/-- ExistsByID of the Mongo adapter: `CountDocuments` on `_id` compared
with zero. -/
def mongoExistsByID (id : Int) (s : List Movie) :
    Except DomainError Bool × List Movie :=
  (.ok (s.any (fun x => x.id == id)), s)

/-- GetNextID of the Mongo adapter: one `FindOne` sorted by `_id`
descending; no document yields 1, otherwise the found id plus one, where
the increment is `int32` arithmetic and wraps at `2^31 - 1`. -/
def mongoGetNextID (s : List Movie) : Except DomainError Int × List Movie :=
  match (sortByIdDesc s).head? with
  | none => (.ok 1, s)
  | some m => (.ok (wrap32 (m.id + 1)), s)

/-- The Mongo adapter packaged as a repository over the collection state. -/
def mongoRepo : MovieRepository (List Movie) :=
  ⟨mongoFindAll, mongoFindByID, mongoCreate, mongoDelete, mongoCount,
   mongoExistsByID, mongoGetNextID⟩

/-- A repository whose every operation fails with a storage error and
leaves the state alone; used to observe which service paths never reach the
repository. -/
def failingRepo (σ : Type) : MovieRepository σ :=
  ⟨fun _ s => (.error (.storage "find failed"), s),
   fun _ s => (.error (.storage "find failed"), s),
   fun _ s => (.error (.storage "insert failed"), s),
   fun _ s => (.error (.storage "delete failed"), s),
   fun s => (.error (.storage "count failed"), s),
   fun _ s => (.error (.storage "exists failed"), s),
   fun s => (.error (.storage "next id failed"), s)⟩

/-- The Mongo adapter with a failing `Count`; exercises the degraded path
of `GetMovies`. -/
def countFailRepo : MovieRepository (List Movie) :=
  { mongoRepo with Count := fun s => (.error (.storage "count failed"), s) }

/-- Filter normalization performed at the top of `GetMovies`: page coerced
to at least 1, limit coerced to 10 when outside `[1, 100]`. -/
def normalizeFilter (f : MovieFilter) : MovieFilter :=
  let p := if f.Page < 1 then 1 else f.Page
  let l := if f.Limit < 1 ∨ f.Limit > 100 then 10 else f.Limit
  ⟨p, l⟩

/-- GetMovies of the service: normalize the filter, list, then count; a
count failure is swallowed and reported as a total of 0 alongside the
successfully listed page. -/
def GetMovies {σ : Type} (r : MovieRepository σ) (f : MovieFilter) (s : σ) :
    Except DomainError (List Movie × Int) × σ :=
  match r.FindAll (normalizeFilter f) s with
  | (.error e, s1) => (.error e, s1)
  | (.ok movies, s1) =>
    match r.Count s1 with
    | (.error _, s2) => (.ok (movies, 0), s2)
    | (.ok total, s2) => (.ok (movies, total), s2)

/-- GetMovie of the service: fail fast with `ErrInvalidMovieData` on a
non-positive id, otherwise delegate to `FindByID`. -/
def GetMovie {σ : Type} (r : MovieRepository σ) (id : Int) (s : σ) :
    Except DomainError Movie × σ :=
  if id ≤ 0 then (.error .invalidMovieData, s)
  else r.FindByID id s

/-- CreateMovie of the service: obtain the next id, construct and validate
through `NewMovie`, re-check existence by that id, then persist.  Each
failing step short-circuits the rest. -/
def CreateMovie {σ : Type} (currentYear : Int) (r : MovieRepository σ)
    (title year : String) (s : σ) : Except DomainError Movie × σ :=
  match r.GetNextID s with
  | (.error e, s1) => (.error e, s1)
  | (.ok nextID, s1) =>
    match NewMovie currentYear nextID title year with
    | .error e => (.error e, s1)
    | .ok movie =>
      match r.ExistsByID movie.id s1 with
      | (.error e, s2) => (.error e, s2)
      | (.ok true, s2) => (.error .movieAlreadyExists, s2)
      | (.ok false, s2) => r.Create movie s2

/-- DeleteMovie of the service: fail fast with `ErrInvalidMovieData` on a
non-positive id, check existence (absence is `ErrMovieNotFound`), then
delete. -/
def DeleteMovie {σ : Type} (r : MovieRepository σ) (id : Int) (s : σ) :
    Except DomainError Unit × σ :=
  if id ≤ 0 then (.error .invalidMovieData, s)
  else
    match r.ExistsByID id s with
    | (.error e, s1) => (.error e, s1)
    | (.ok false, s1) => (.error .movieNotFound, s1)
    | (.ok true, s1) => r.Delete id s1

/-- A repository call result fails with an error of the spec's `InvalidData`
kind. -/
def failsInvalidData {α σ : Type} (r : Except DomainError α × σ) : Bool :=
  match r.1 with
  | .error e => e.isInvalidData
  | .ok _ => false

/-- A string is empty exactly when its character list is. -/
theorem string_eq_empty_iff (s : String) : s = "" ↔ s.data = [] := by
  constructor
  · intro h
    rw [h]
  · intro h
    cases s
    simp_all

/-- On the representable range of `int32`, `wrap32` is the identity. -/
theorem wrap32_eq_self (n : Int) (h1 : -(2 ^ 31) ≤ n) (h2 : n < 2 ^ 31) :
    wrap32 n = n := by
  unfold wrap32
  have h3 : (n + 2 ^ 31) % 2 ^ 32 = n + 2 ^ 31 :=
    Int.emod_eq_of_lt (by omega) (by omega)
  omega

/-- On a non-empty all-digit string, `goAtoi` succeeds with the digit
value. -/
theorem goAtoi_all_digits (s : String) (hne : s.data ≠ [])
    (hdig : s.data.all Char.isDigit = true) :
    goAtoi s = some ((digitsVal s.data : Int)) := by
  rcases hcs : s.data with _ | ⟨c, rest⟩
  · exact absurd hcs hne
  · have hc : c.isDigit = true := by
      rw [hcs, List.all_cons, Bool.and_eq_true] at hdig
      exact hdig.1
    have hcm : c ≠ '-' := by
      intro h
      rw [h] at hc
      exact absurd hc (by decide)
    have hcp : c ≠ '+' := by
      intro h
      rw [h] at hc
      exact absurd hc (by decide)
    simp only [goAtoi, hcs, if_neg hcm, if_neg hcp, parseDigits]
    rw [hcs] at hdig
    simp [hdig]

/-- Characterization of `Movie.Validate` success: non-empty title, non-empty
year, year of length 4, year accepted by `Atoi`.  No range condition
appears. -/
theorem validate_ok_iff (m : Movie) :
    m.Validate = .ok () ↔
      (m.title ≠ "" ∧ m.year ≠ "" ∧ m.year.data.length = 4 ∧
        (goAtoi m.year).isSome = true) := by
  unfold Movie.Validate
  split_ifs with h1 h2 h3
  · constructor
    · intro h
      exact h.elim
    · rintro ⟨hc, -⟩
      exact absurd h1 hc
  · constructor
    · intro h
      exact h.elim
    · rintro ⟨-, hc, -⟩
      exact absurd h2 hc
  · constructor
    · intro h
      exact h.elim
    · rintro ⟨-, -, hc, -⟩
      exact absurd hc h3
  · rcases ha : goAtoi m.year with _ | v
    · constructor
      · intro h
        simp at h
      · rintro ⟨-, -, -, hc⟩
        simp at hc
    · constructor
      · intro _
        exact ⟨h1, h2, not_not.mp h3, by simp⟩
      · intro _
        rfl

/-- A constructor success yields the movie assembled from the inputs, and
implies every constraint checked by `NewMovie`. -/
theorem newMovie_ok_iff (currentYear id : Int) (title year : String) (mv : Movie) :
    NewMovie currentYear id title year = .ok mv ↔
      (mv = ⟨id, title, year⟩ ∧ title ≠ "" ∧ year ≠ "" ∧ year.data.length = 4 ∧
        ∃ v, goAtoi year = some v ∧ 1800 ≤ v ∧ v ≤ currentYear + 10) := by
  unfold NewMovie
  split_ifs with h1 h2 h3
  · constructor
    · intro h
      exact h.elim
    · rintro ⟨-, hc, -⟩
      exact absurd h1 hc
  · constructor
    · intro h
      exact h.elim
    · rintro ⟨-, -, hc, -⟩
      exact absurd h2 hc
  · constructor
    · intro h
      exact h.elim
    · rintro ⟨-, -, -, hc, -⟩
      exact absurd hc h3
  · rcases ha : goAtoi year with _ | v
    · dsimp only
      constructor
      · intro h
        simp at h
      · rintro ⟨-, -, -, -, w, hw, -⟩
        exact Option.noConfusion hw
    · dsimp only
      split_ifs with h4
      · constructor
        · intro h
          exact h.elim
        · rintro ⟨-, -, -, -, w, hw, hw1, hw2⟩
          injection hw with hw
          omega
      · push_neg at h4
        constructor
        · intro h
          injection h with h
          exact ⟨h.symm, h1, h2, not_not.mp h3, v, rfl, h4.1, by omega⟩
        · rintro ⟨hmv, -⟩
          rw [hmv]

/-- Every error produced by `NewMovie` is of the `InvalidData` kind. -/
theorem newMovie_error_isInvalidData (currentYear id : Int) (title year : String)
    (e : DomainError) (h : NewMovie currentYear id title year = .error e) :
    e.isInvalidData = true := by
  unfold NewMovie at h
  split_ifs at h with h1 h2 h3
  · injection h with h
    rw [← h]
    rfl
  · injection h with h
    rw [← h]
    rfl
  · injection h with h
    rw [← h]
    rfl
  · rcases ha : goAtoi year with _ | v
    · rw [ha] at h
      injection h with h
      rw [← h]
      rfl
    · rw [ha] at h
      dsimp only at h
      split_ifs at h with h4
      · injection h with h
        rw [← h]
        rfl

/-- An empty descending sort means an empty collection. -/
theorem sortDesc_head_none (s : List Movie) (h : (sortByIdDesc s).head? = none) :
    s = [] := by
  rw [List.head?_eq_none_iff] at h
  have hp := List.perm_insertionSort idGe s
  rw [show sortByIdDesc s = List.insertionSort idGe s from rfl] at h
  rw [h] at hp
  exact hp.symm.eq_nil

/-- The head of the descending sort is a stored record with the maximal
id. -/
theorem sortDesc_head_max (s : List Movie) (m : Movie)
    (h : (sortByIdDesc s).head? = some m) :
    m ∈ s ∧ ∀ x ∈ s, x.id ≤ m.id := by
  have hs : List.Sorted idGe (sortByIdDesc s) :=
    List.sorted_insertionSort idGe s
  rcases hd : sortByIdDesc s with _ | ⟨a, t⟩
  · rw [hd] at h
    exact absurd h (by simp)
  · rw [hd] at h hs
    simp only [List.head?_cons, Option.some.injEq] at h
    rw [List.Sorted, List.pairwise_cons] at hs
    constructor
    · have hmem : m ∈ sortByIdDesc s := by
        rw [hd, ← h]
        exact List.mem_cons_self a t
      exact (List.mem_insertionSort idGe).mp hmem
    · intro x hx
      have hxs : x ∈ sortByIdDesc s := (List.mem_insertionSort idGe).mpr hx
      rw [hd] at hxs
      rcases List.mem_cons.mp hxs with h2 | h2
      · rw [h2, ← h]
      · rw [← h]
        exact hs.1 x h2

/-- C8: for every non-positive id, `GetMovie` and `DeleteMovie` fail with
`ErrInvalidMovieData` and leave the state untouched, uniformly in the
repository — no repository operation is consulted, so the result is the
same even for a repository whose every operation errors. -/
theorem c8_nonpositive_id_fails_fast {σ : Type} (r : MovieRepository σ)
    (s : σ) (id : Int) (h : id ≤ 0) :
    GetMovie r id s = (.error .invalidMovieData, s) ∧
    DeleteMovie r id s = (.error .invalidMovieData, s) := by
  constructor
  · simp only [GetMovie, if_pos h]
  · simp only [DeleteMovie, if_pos h]

/-- Witness for C8 at id 0 against the all-failing repository. -/
theorem c8_witness :
    GetMovie (failingRepo Unit) 0 () = (.error .invalidMovieData, ()) ∧
    DeleteMovie (failingRepo Unit) 0 () = (.error .invalidMovieData, ()) :=
  c8_nonpositive_id_fails_fast (failingRepo Unit) () 0 (by decide)

/-- C9: when the listing succeeds, a failing count leaves `GetMovies`
returning the listed page with a total of 0 and no error, while a
successful count returns the counted total. -/
theorem c9_count_failure_degrades {σ : Type} (r : MovieRepository σ)
    (f : MovieFilter) (s s1 s2 s3 : σ) (movies : List Movie)
    (e : DomainError) (total : Int)
    (hfind : r.FindAll (normalizeFilter f) s = (.ok movies, s1)) :
    (r.Count s1 = (.error e, s2) → GetMovies r f s = (.ok (movies, 0), s2)) ∧
    (r.Count s1 = (.ok total, s3) → GetMovies r f s = (.ok (movies, total), s3)) := by
  constructor
  · intro hc
    simp only [GetMovies, hfind, hc]
  · intro hc
    simp only [GetMovies, hfind, hc]

/-- Witness for C9 against the Mongo adapter with a failing count. -/
theorem c9_witness :
    GetMovies countFailRepo ⟨1, 10⟩ [⟨1, "A", "1999"⟩] =
      (.ok ([⟨1, "A", "1999"⟩], 0), [⟨1, "A", "1999"⟩]) :=
  (c9_count_failure_degrades countFailRepo ⟨1, 10⟩ [⟨1, "A", "1999"⟩]
      [⟨1, "A", "1999"⟩] [⟨1, "A", "1999"⟩] [⟨1, "A", "1999"⟩]
      [⟨1, "A", "1999"⟩] (.storage "count failed") 0 (by decide)).1 (by decide)

/-- C7: deleting a positive id absent from the store yields exactly
`ErrMovieNotFound` with the state unchanged, and a repeated call on the
resulting state yields the same outcome. -/
theorem c7_delete_nonexistent_idempotent (id : Int) (s : List Movie)
    (hid : 0 < id) (habsent : ∀ m ∈ s, m.id ≠ id) :
    DeleteMovie mongoRepo id s = (.error .movieNotFound, s) ∧
    DeleteMovie mongoRepo id (DeleteMovie mongoRepo id s).2 =
      (.error .movieNotFound, s) := by
  have hany : s.any (fun x => x.id == id) = false := by
    rw [List.any_eq_false]
    intro x hx
    simp only [beq_iff_eq]
    exact habsent x hx
  have h1 : DeleteMovie mongoRepo id s = (.error .movieNotFound, s) := by
    simp only [DeleteMovie, if_neg (by omega : ¬id ≤ 0), mongoRepo,
      mongoExistsByID, hany]
  exact ⟨h1, by rw [h1, h1]⟩

/-- Witness for C7 at id 5 against a one-record store. -/
theorem c7_witness :
    DeleteMovie mongoRepo 5 [⟨1, "A", "1999"⟩] =
      (.error .movieNotFound, [⟨1, "A", "1999"⟩]) :=
  (c7_delete_nonexistent_idempotent 5 [⟨1, "A", "1999"⟩] (by decide)
    (by decide)).1

/-- Counterexample for C6: at the store holding the maximal `int32` id,
the increment wraps and `GetNextID` returns -2^31 rather than
max(id) + 1 = 2^31. -/
theorem c6_counterexample :
    (mongoGetNextID [⟨2147483647, "A", "1999"⟩]).1 = .ok (-2147483648) ∧
    (2147483647 : Int) + 1 = 2147483648 ∧
    (-2147483648 : Int) ≠ 2147483648 := by decide

/-- C6 (amended): `GetNextID` leaves the collection unchanged, returns 1 on
an empty collection, and otherwise returns the highest stored id plus one
reduced by `int32` wraparound — equal to max(id) + 1 exactly when that sum
is still representable (the id it reads is a stored record's id that
dominates every stored id). -/
theorem c6_getNextId_spec (s : List Movie) :
    (mongoGetNextID s).2 = s ∧
    (s = [] → (mongoGetNextID s).1 = .ok 1) ∧
    (s ≠ [] → ∃ m, m ∈ s ∧ (∀ x ∈ s, x.id ≤ m.id) ∧
      (mongoGetNextID s).1 = .ok (wrap32 (m.id + 1)) ∧
      (-(2 ^ 31) ≤ m.id + 1 → m.id + 1 < 2 ^ 31 →
        (mongoGetNextID s).1 = .ok (m.id + 1))) := by
  refine ⟨?_, ?_, ?_⟩
  · unfold mongoGetNextID
    rcases (sortByIdDesc s).head? with _ | m
    · rfl
    · rfl
  · intro h
    subst h
    rfl
  · intro hne
    rcases hh : (sortByIdDesc s).head? with _ | m
    · exact absurd (sortDesc_head_none s hh) hne
    · obtain ⟨hmem, hmax⟩ := sortDesc_head_max s m hh
      have hval : (mongoGetNextID s).1 = .ok (wrap32 (m.id + 1)) := by
        unfold mongoGetNextID
        rw [hh]
      refine ⟨m, hmem, hmax, hval, ?_⟩
      intro hlo hhi
      rw [hval, wrap32_eq_self (m.id + 1) hlo hhi]

/-- Witness for C6 (amended) on the empty store and on a two-record store
whose maximal id does not overflow. -/
theorem c6_witness :
    (mongoGetNextID []).1 = .ok 1 ∧
    (mongoGetNextID [⟨2, "B", "1999"⟩, ⟨5, "A", "1999"⟩]).1 = .ok 6 := by
  refine ⟨(c6_getNextId_spec []).2.1 rfl, ?_⟩
  obtain ⟨m, hm, hmax, -, h⟩ :=
    (c6_getNextId_spec [⟨2, "B", "1999"⟩, ⟨5, "A", "1999"⟩]).2.2 (by decide)
  rcases List.mem_cons.mp hm with h2 | h2
  · exfalso
    have h5 := hmax ⟨5, "A", "1999"⟩ (by decide)
    rw [h2] at h5
    exact absurd h5 (by decide)
  · simp only [List.mem_singleton] at h2
    rw [h2] at h
    exact h (by decide) (by decide)

/-- C10: `Movie.Update` is not atomic on validation failure: with a
non-empty title and a non-empty invalid year (wrong length or not
`Atoi`-parseable) it returns `ErrInvalidYear` while the title field has
already been overwritten (the year is kept); and it never checks the
`[1800, currentYear + 10]` range, so any 4-character parseable year is
accepted regardless of its value. -/
theorem c10_update_partial_mutation (m m2 : Movie) (t y y2 : String)
    (ht : t ≠ "") (hy : y ≠ "")
    (hbad : y.data.length ≠ 4 ∨ goAtoi y = none)
    (h2t : m2.title ≠ "") (h2len : y2.data.length = 4)
    (h2atoi : (goAtoi y2).isSome = true) :
    ((m.Update t y).2 = .error .invalidYear ∧
      (m.Update t y).1.title = t ∧ (m.Update t y).1.year = m.year) ∧
    (m2.Update m2.title y2).2 = .ok () := by
  constructor
  · by_cases hlen : y.data.length ≠ 4
    · simp only [Movie.Update, if_neg ht, if_neg hy, if_pos hlen]
      exact ⟨by trivial, by trivial, by trivial⟩
    · have hnone : goAtoi y = none := by
        rcases hbad with h | h
        · exact absurd h hlen
        · exact h
      simp only [Movie.Update, if_neg ht, if_neg hy, if_neg hlen, hnone]
      exact ⟨by trivial, by trivial, by trivial⟩
  · have hyne : y2 ≠ "" := by
      intro h
      rw [h] at h2len
      simp at h2len
    rcases hs : goAtoi y2 with _ | v
    · rw [hs] at h2atoi
      simp at h2atoi
    · simp only [Movie.Update, if_neg h2t, if_neg hyne,
        if_neg (by omega : ¬y2.data.length ≠ 4), hs]
      refine (validate_ok_iff _).mpr ⟨?_, ?_, ?_, ?_⟩
      · exact h2t
      · exact hyne
      · exact h2len
      · rw [hs]
        rfl

/-- Witness for C10: an invalid year update leaves a half-updated movie,
and an out-of-range year 1700 is accepted by Update. -/
theorem c10_witness :
    (Movie.Update ⟨1, "Old", "1999"⟩ "New" "abc").2 = .error .invalidYear ∧
    (Movie.Update ⟨1, "Old", "1999"⟩ "New" "abc").1.title = "New" ∧
    (Movie.Update ⟨1, "Old", "1999"⟩ "New" "abc").1.year = "1999" ∧
    (Movie.Update ⟨1, "T", "1700"⟩ "T" "1700").2 = .ok () := by
  have h := c10_update_partial_mutation ⟨1, "Old", "1999"⟩ ⟨1, "T", "1700"⟩
    "New" "abc" "1700" (by decide) (by decide) (Or.inl (by decide))
    (by decide) (by decide) (by decide)
  exact ⟨h.1.1, h.1.2.1, h.1.2.2, h.2⟩

/-- Counterexample for C1: the repository create operation accepts and
persists a movie whose year "1700" parses to 1700 < 1800, i.e. outside the
claimed `[1800, currentYear + 10]` range (for every currentYear). -/
theorem c1_counterexample :
    mongoCreate ⟨1, "Test Movie", "1700"⟩ [] =
      (.ok ⟨1, "Test Movie", "1700"⟩, [⟨1, "Test Movie", "1700"⟩]) ∧
    goAtoi "1700" = some 1700 ∧ (1700 : Int) < 1800 := by decide

/-- C1 (amended): every movie accepted by the repository create operation
was validated through `Movie.Validate` before the insert, so it satisfies
the format invariant — non-empty title, non-empty year, year of length 4
accepted by `Atoi` — but not the year range, and the accepted movie is the
one appended to the collection. -/
theorem c1_create_accepts_format (m m' : Movie) (s s' : List Movie)
    (h : mongoCreate m s = (.ok m', s')) :
    m' = m ∧ s' = s ++ [m] ∧ m.title ≠ "" ∧ m.year ≠ "" ∧
    m.year.data.length = 4 ∧ (goAtoi m.year).isSome = true := by
  unfold mongoCreate at h
  rcases hv : m.Validate with e | u
  · rw [hv] at h
    simp at h
  · rw [hv] at h
    dsimp only at h
    by_cases hdup : s.any (fun x => x.id == m.id) = true
    · rw [if_pos hdup] at h
      simp at h
    · rw [if_neg hdup] at h
      injection h with ha hb
      injection ha with ha
      have hval : m.Validate = .ok () := by rw [hv]
      obtain ⟨t1, t2, t3, t4⟩ := (validate_ok_iff m).mp hval
      exact ⟨ha.symm, hb.symm, t1, t2, t3, t4⟩

/-- Witness for C1 (amended) at a well-formed movie on the empty store. -/
theorem c1_witness :
    (⟨1, "Test Movie", "2023"⟩ : Movie) = ⟨1, "Test Movie", "2023"⟩ ∧
    [⟨1, "Test Movie", "2023"⟩] = ([] : List Movie) ++ [⟨1, "Test Movie", "2023"⟩] ∧
    (⟨1, "Test Movie", "2023"⟩ : Movie).title ≠ "" ∧
    (⟨1, "Test Movie", "2023"⟩ : Movie).year ≠ "" ∧
    (⟨1, "Test Movie", "2023"⟩ : Movie).year.data.length = 4 ∧
    (goAtoi (⟨1, "Test Movie", "2023"⟩ : Movie).year).isSome = true :=
  c1_create_accepts_format ⟨1, "Test Movie", "2023"⟩ ⟨1, "Test Movie", "2023"⟩
    [] [⟨1, "Test Movie", "2023"⟩] (by decide)

/-- Counterexample for C2: the movie (1, "Test Movie", "1700") passes the
standalone validator but is rejected by the constructor, so the two are not
equivalent. -/
theorem c2_counterexample :
    Movie.Validate ⟨1, "Test Movie", "1700"⟩ = .ok () ∧
    (NewMovie 2025 1 "Test Movie" "1700").isOk = false := by decide

/-- C2 (amended): the constructor succeeds exactly when the standalone
validator succeeds AND the parsed year additionally lies in
`[1800, currentYear + 10]` — the validator checks a strict subset of the
constructor's constraints, omitting the range check. -/
theorem c2_validate_weaker_than_constructor (currentYear id : Int) (m : Movie) :
    (NewMovie currentYear id m.title m.year).isOk = true ↔
      ((m.Validate).isOk = true ∧
        ∀ v, goAtoi m.year = some v → 1800 ≤ v ∧ v ≤ currentYear + 10) := by
  constructor
  · intro h
    rcases hn : NewMovie currentYear id m.title m.year with e | mv
    · rw [hn] at h
      simp [Except.isOk, Except.toBool] at h
    · obtain ⟨-, t1, t2, t3, v, hv, hv1, hv2⟩ := (newMovie_ok_iff _ _ _ _ _).mp hn
      constructor
      · have hval : m.Validate = .ok () :=
          (validate_ok_iff m).mpr ⟨t1, t2, t3, by rw [hv]; rfl⟩
        rw [hval]
        rfl
      · intro w hw
        rw [hv] at hw
        injection hw with hw
        omega
  · rintro ⟨hval, hrange⟩
    rcases hvv : m.Validate with e | u
    · rw [hvv] at hval
      simp [Except.isOk, Except.toBool] at hval
    · have hval2 : m.Validate = .ok () := by rw [hvv]
      obtain ⟨t1, t2, t3, t4⟩ := (validate_ok_iff m).mp hval2
      rcases ha : goAtoi m.year with _ | v
      · rw [ha] at t4
        simp at t4
      · obtain ⟨r1, r2⟩ := hrange v ha
        have hok : NewMovie currentYear id m.title m.year =
            .ok ⟨id, m.title, m.year⟩ :=
          (newMovie_ok_iff _ _ _ _ _).mpr ⟨rfl, t1, t2, t3, v, ha, r1, r2⟩
        rw [hok]
        rfl

/-- Counterexample for C3: on a store holding the maximal `int32` id, a
perfectly valid creation succeeds but the `int32` increment wraps, so the
returned record's id is -2^31, not strictly positive. -/
theorem c3_counterexample :
    CreateMovie 2023 mongoRepo "Test Movie" "2023" [⟨2147483647, "A", "1999"⟩] =
      (.ok ⟨-2147483648, "Test Movie", "2023"⟩,
        [⟨2147483647, "A", "1999"⟩, ⟨-2147483648, "Test Movie", "2023"⟩]) ∧
    ¬(0 : Int) < -2147483648 := by decide

/-- C3 (amended): on a store whose ids are non-negative and whose maximal
id stays below 2^31 - 1 (so the fresh-id increment cannot wrap), creating a
movie from a non-empty title and a 4-digit year within
`[1800, currentYear + 10]` succeeds: the persisted record carries exactly
the input title and year, a strictly positive fresh id, and is appended to
the store. -/
theorem c3_createMovie_valid_succeeds (currentYear : Int) (title year : String)
    (s : List Movie) (nid : Int)
    (ht : title ≠ "")
    (hlen : year.data.length = 4)
    (hdig : year.data.all Char.isDigit = true)
    (hlo : 1800 ≤ (digitsVal year.data : Int))
    (hhi : (digitsVal year.data : Int) ≤ currentYear + 10)
    (hids : ∀ m ∈ s, 0 ≤ m.id)
    (hbound : ∀ m ∈ s, m.id < 2 ^ 31 - 1)
    (hnid : (mongoGetNextID s).1 = .ok nid) :
    CreateMovie currentYear mongoRepo title year s =
      (.ok ⟨nid, title, year⟩, s ++ [⟨nid, title, year⟩]) ∧ 0 < nid := by
  have hyne : year ≠ "" := by
    intro h
    rw [h] at hlen
    simp at hlen
  have hne : year.data ≠ [] := by
    intro h
    rw [h] at hlen
    simp at hlen
  have hatoi : goAtoi year = some ((digitsVal year.data : Int)) :=
    goAtoi_all_digits year hne hdig
  have hnm : NewMovie currentYear nid title year = .ok ⟨nid, title, year⟩ :=
    (newMovie_ok_iff _ _ _ _ _).mpr ⟨rfl, ht, hyne, hlen, _, hatoi, hlo, hhi⟩
  have hkey : (∀ x ∈ s, x.id < nid) ∧ 0 < nid := by
    rcases hh : (sortByIdDesc s).head? with _ | mhead
    · have hs0 : s = [] := sortDesc_head_none s hh
      have h1 : (mongoGetNextID s).1 = .ok 1 := by
        unfold mongoGetNextID
        rw [hh]
      rw [h1] at hnid
      injection hnid with hv
      refine ⟨fun x hx => ?_, by omega⟩
      rw [hs0] at hx
      exact absurd hx (List.not_mem_nil x)
    · obtain ⟨hmem, hmax⟩ := sortDesc_head_max s mhead hh
      have h1 : (mongoGetNextID s).1 = .ok (wrap32 (mhead.id + 1)) := by
        unfold mongoGetNextID
        rw [hh]
      rw [h1] at hnid
      injection hnid with hv
      have h0 := hids mhead hmem
      have hb := hbound mhead hmem
      rw [wrap32_eq_self (mhead.id + 1) (by omega) (by omega)] at hv
      refine ⟨fun x hx => ?_, by omega⟩
      have := hmax x hx
      omega
  have hexists : s.any (fun x => x.id == nid) = false := by
    rw [List.any_eq_false]
    intro x hx
    simp only [beq_iff_eq]
    have := hkey.1 x hx
    omega
  have hval : Movie.Validate ⟨nid, title, year⟩ = .ok () :=
    (validate_ok_iff _).mpr ⟨ht, hyne, hlen, by rw [hatoi]; rfl⟩
  have h2 : (mongoGetNextID s).2 = s := by
    unfold mongoGetNextID
    rcases (sortByIdDesc s).head? with _ | m
    · rfl
    · rfl
  have hgid : mongoGetNextID s = (.ok nid, s) := Prod.ext hnid h2
  refine ⟨?_, hkey.2⟩
  simp only [CreateMovie, mongoRepo]
  rw [hgid]
  dsimp only
  rw [hnm]
  dsimp only [mongoExistsByID]
  rw [hexists]
  dsimp only [mongoCreate]
  rw [hval]
  dsimp only
  rw [if_neg (by rw [hexists]; exact Bool.false_ne_true)]

/-- Witness for C3: the spec scenario — creating ("Test Movie", "2023") in
an empty store succeeds with id 1. -/
theorem c3_witness :
    CreateMovie 2023 mongoRepo "Test Movie" "2023" [] =
      (.ok ⟨1, "Test Movie", "2023"⟩, [] ++ [⟨1, "Test Movie", "2023"⟩]) ∧
    (0 : Int) < 1 :=
  c3_createMovie_valid_succeeds 2023 "Test Movie" "2023" [] 1 (by decide)
    (by decide) (by decide) (by decide) (by decide) (by simp) (by simp)
    (by decide)

/-- C4: a creation request violating any constraint — empty title, empty
year, year not of length 4, year rejected by `Atoi`, or parsed year out of
range — fails with an `InvalidData`-kind error and leaves the store state
exactly as it was (hence any subsequent count or lookup is unchanged); the
validation failure short-circuits the existence check and the insert. -/
theorem c4_createMovie_invalid_no_write (currentYear : Int)
    (title year : String) (s : List Movie)
    (hbad : title = "" ∨ year = "" ∨ year.data.length ≠ 4 ∨
      goAtoi year = none ∨
      (∃ v, goAtoi year = some v ∧ (v < 1800 ∨ currentYear + 10 < v))) :
    (CreateMovie currentYear mongoRepo title year s).2 = s ∧
    failsInvalidData (CreateMovie currentYear mongoRepo title year s) = true := by
  have hg : ∃ nid, mongoGetNextID s = (.ok nid, s) := by
    unfold mongoGetNextID
    rcases (sortByIdDesc s).head? with _ | m
    · exact ⟨1, rfl⟩
    · exact ⟨_, rfl⟩
  obtain ⟨nid, hgn⟩ := hg
  rcases hn : NewMovie currentYear nid title year with e | mv
  · have hres : CreateMovie currentYear mongoRepo title year s = (.error e, s) := by
      simp only [CreateMovie, mongoRepo]
      rw [hgn]
      dsimp only
      rw [hn]
    rw [hres]
    exact ⟨rfl, newMovie_error_isInvalidData currentYear nid title year e hn⟩
  · exfalso
    obtain ⟨-, t1, t2, t3, v, hv, hv1, hv2⟩ := (newMovie_ok_iff _ _ _ _ _).mp hn
    rcases hbad with h | h | h | h | ⟨w, hw, hrange⟩
    · exact t1 h
    · exact t2 h
    · exact h t3
    · rw [hv] at h
      exact Option.noConfusion h
    · rw [hv] at hw
      injection hw with hw
      omega

/-- Witness for C4: the spec scenario — creating ("", "2023") fails with
invalid data and writes nothing. -/
theorem c4_witness :
    (CreateMovie 2023 mongoRepo "" "2023" []).2 = ([] : List Movie) ∧
    failsInvalidData (CreateMovie 2023 mongoRepo "" "2023" []) = true :=
  c4_createMovie_invalid_no_write 2023 "" "2023" [] (Or.inl rfl)

/-- Counterexample for C5: at page 2^30 + 1 with limit 2 — both within the
claimed ranges — the `int32` skip computation wraps to -2^31, the store
rejects the negative skip, and `GetMovies` errors instead of returning an
empty page. -/
theorem c5_counterexample :
    (1 : Int) ≤ 1073741825 ∧ (1 : Int) ≤ 2 ∧ (2 : Int) ≤ 100 ∧
    GetMovies mongoRepo ⟨1073741825, 2⟩ [] =
      (.error (.storage "skip value is required to be non-negative"), []) := by
  decide

/-- C5 (amended): for page ≥ 1 and limit in [1,100] whose skip product
`(p-1)*l` does not overflow `int32`, `GetMovies` succeeds and returns
exactly the window `[(p-1)*l, (p-1)*l + l)` of the collection sorted by
ascending id, together with the (int32-narrowed) total count, leaving the
state unchanged; the returned window is sorted by ascending id, and a page
past the last record yields the empty sequence. -/
theorem c5_pagination_window (p l : Int) (s : List Movie)
    (hp : 1 ≤ p) (hl1 : 1 ≤ l) (hl2 : l ≤ 100)
    (hov : (p - 1) * l < 2 ^ 31) :
    GetMovies mongoRepo ⟨p, l⟩ s =
      (.ok ((((sortById s).drop ((p - 1) * l).toNat).take l.toNat),
        wrap32 (s.length : Int)), s) ∧
    List.Sorted idLe (((sortById s).drop ((p - 1) * l).toNat).take l.toNat) ∧
    ((s.length : Int) ≤ (p - 1) * l →
      (((sortById s).drop ((p - 1) * l).toNat).take l.toNat) = []) := by
  have hnf : normalizeFilter ⟨p, l⟩ = ⟨p, l⟩ := by
    simp only [normalizeFilter]
    rw [if_neg (by omega : ¬p < 1), if_neg (by omega : ¬(l < 1 ∨ l > 100))]
  have h0 : 0 ≤ (p - 1) * l := mul_nonneg (by omega) (by omega)
  have hskip : wrap32 ((p - 1) * l) = (p - 1) * l :=
    wrap32_eq_self _ (by omega) hov
  refine ⟨?_, ?_, ?_⟩
  · simp only [GetMovies, hnf, mongoRepo, mongoFindAll, mongoCount, hskip,
      if_neg (by omega : ¬(p - 1) * l < 0)]
  · have hs : List.Sorted idLe (sortById s) := List.sorted_insertionSort idLe s
    have hsub :
        ((((sortById s).drop ((p - 1) * l).toNat).take l.toNat)).Sublist
          (sortById s) :=
      (List.take_sublist _ _).trans (List.drop_sublist _ _)
    exact List.Pairwise.sublist hsub hs
  · intro hN
    have hlen : (sortById s).length = s.length :=
      (List.perm_insertionSort idLe s).length_eq
    have h2 : (sortById s).length ≤ ((p - 1) * l).toNat := by omega
    rw [List.drop_eq_nil_of_le h2]
    simp

/-- Witness for C5: page 2 with limit 2 over five unsorted records returns
the third and fourth records in id order, and page 7 of a one-record store
is empty. -/
theorem c5_witness :
    GetMovies mongoRepo ⟨2, 2⟩
      [⟨3, "C", "1999"⟩, ⟨1, "A", "1999"⟩, ⟨2, "B", "1999"⟩, ⟨4, "D", "1999"⟩,
        ⟨5, "E", "1999"⟩] =
      (.ok ([⟨3, "C", "1999"⟩, ⟨4, "D", "1999"⟩], 5),
        [⟨3, "C", "1999"⟩, ⟨1, "A", "1999"⟩, ⟨2, "B", "1999"⟩, ⟨4, "D", "1999"⟩,
          ⟨5, "E", "1999"⟩]) ∧
    (((sortById [⟨1, "A", "1999"⟩]).drop ((7 - 1) * 10 : Int).toNat).take
      (10 : Int).toNat) = [] := by
  constructor
  · exact (c5_pagination_window 2 2 _ (by decide) (by decide) (by decide)
      (by decide)).1
  · exact (c5_pagination_window 7 10 [⟨1, "A", "1999"⟩] (by decide) (by decide)
      (by decide) (by decide)).2.2 (by decide)

end MoviesService

